import Mathlib

/-!
Verification of the room-relay server of the collaborative sound-to-paint
repository. The server (server.js) is a socket.io relay: clients join named
rooms and the server fans out stroke, state and clear events to the other
members of the rooms of the sender. We give a shallow embedding of the
registry state kept by the socket.io adapter together with each event
handler of server.js, and prove the documented properties about them.
-/

/-- Registry state of the transport, mirroring the socket.io adapter:
`rooms` maps a room id to the set of member socket ids (an absent room is
`none`), and `sids` maps a socket id to the set of rooms it is in (the set
read by `socket.rooms`). The JS `Map`/`Set` pair is modelled as functions
to `Option (List String)`, lists kept in insertion order without
duplicates. -/
structure Adapter where
  rooms : String → Option (List String)
  sids : String → Option (List String)

/-- The adapter at server start: no rooms, no sockets. -/
def emptyAdapter : Adapter := ⟨fun _ => none, fun _ => none⟩

/-- Point update of a map, mirroring `Map.set` / `Map.delete`. -/
def upd (f : String → Option (List String)) (k : String) (v : Option (List String)) :
    String → Option (List String) :=
  fun q => if q = k then v else f q

/-- Insertion into a JS `Set` modelled on lists: appends when absent,
keeps the list unchanged when present. -/
def insertL (x : String) (l : List String) : List String :=
  if x ∈ l then l else l ++ [x]

/-- Member list of a room: the value of `adapter.rooms.get(room)`, empty
when the room is absent. -/
def members (st : Adapter) (room : String) : List String :=
  (st.rooms room).getD []

/-- The set `socket.rooms` of a socket, read from the `sids` side of the
adapter; empty when the socket is unknown. -/
def socketRooms (st : Adapter) (sid : String) : List String :=
  (st.sids sid).getD []

/-- Embeds `io.sockets.adapter.rooms.get(room)?.size || 0` (lines 24 and 55
of server.js): the optional chaining plus `|| 0` yields 0 for an absent
room. -/
def roomSize (st : Adapter) (room : String) : Nat :=
  ((st.rooms room).map List.length).getD 0

/-- Embeds `adapter.addAll(id, {room})`, the effect of `socket.join(room)`:
adds the socket to the room (creating the room on demand) and the room to
the room set of the socket. -/
def addAll (st : Adapter) (sid room : String) : Adapter :=
  { rooms := upd st.rooms room (some (insertL sid (members st room)))
    sids := upd st.sids sid (some (insertL room (socketRooms st sid))) }

/-- Encodes the socket.io rule that a room whose member set becomes empty
is deleted from the map: an empty list is stored as an absent entry. -/
def dropEmpty (l : List String) : Option (List String) :=
  if l = [] then none else some l

/-- Embeds `adapter.del(id, room)`, the effect of `socket.leave(room)`:
removes the room from the room set of the socket and the socket from the
member set of the room, dropping the room entry when it becomes empty. -/
def del (st : Adapter) (sid room : String) : Adapter :=
  { rooms :=
      match st.rooms room with
      | none => st.rooms
      | some l => upd st.rooms room (dropEmpty (l.filter (fun m => m ≠ sid)))
    sids :=
      match st.sids sid with
      | none => st.sids
      | some l => upd st.sids sid (some (l.filter (fun r => r ≠ room))) }

/-- Embeds `adapter.delAll(id)`: removes the socket from every room of its
room set (dropping rooms that become empty, written pointwise since the
room set holds each room once) and deletes its `sids` entry. The transport
runs this when a socket closes, before the `disconnect` event fires. -/
def delAll (st : Adapter) (sid : String) : Adapter :=
  { rooms := fun room =>
      if room ∈ socketRooms st sid then
        match st.rooms room with
        | none => none
        | some l => dropEmpty (l.filter (fun m => m ≠ sid))
      else st.rooms room
    sids := upd st.sids sid none }

/-- On connection socket.io places each socket in a synthetic room named
after its own id. -/
def connectSocket (st : Adapter) (sid : String) : Adapter :=
  addAll st sid sid

/-- Embeds the expression repeated in the stroke, state, clear and
disconnect handlers: `Array.from(socket.rooms).filter(r => r !== socket.id)`,
the real rooms of the session with the synthetic self room removed. -/
def roomsOf (st : Adapter) (sid : String) : List String :=
  (socketRooms st sid).filter (fun r => r ≠ sid)

/-- Outbound events of server.js; `α` is the opaque payload type of the
stroke and state events, forwarded verbatim. -/
inductive OutMsg (α : Type) where
  | userJoined (username id : String)
  | roomInfo (room : String) (userCount : Nat)
  | roomCount (count : Nat)
  | soundStroke (data : α)
  | soundState (data : α)
  | canvasClear
  deriving DecidableEq, Repr

/-- Embeds `io.to(room).emit(...)`: one delivery per member of the room,
the sender included. -/
def emitToRoom {α : Type} (st : Adapter) (room : String) (m : OutMsg α) :
    List (String × OutMsg α) :=
  (members st room).map (fun b => (b, m))

/-- Embeds `socket.to(room).emit(...)`: one delivery per member of the
room other than the sender. -/
def emitToRoomExcept {α : Type} (st : Adapter) (room sender : String) (m : OutMsg α) :
    List (String × OutMsg α) :=
  ((members st room).filter (fun b => b ≠ sender)).map (fun b => (b, m))

/-- Embeds the `join` handler (lines 17 to 28 of server.js). The two data
fields are `Option String` since a missing field destructures to
`undefined`; the guard `if (!room || !username) return;` is true exactly
when a field is missing or the empty string. On success the handler joins
the room, then emits `user:joined` to the others, `room:info` to the
sender and `room:count` to the whole room, with the size read after the
join. -/
def joinHandler {α : Type} (st : Adapter) (sid : String) (room username : Option String) :
    Adapter × List (String × OutMsg α) :=
  if room.getD "" = "" ∨ username.getD "" = "" then (st, [])
  else
    let r := room.getD ""
    let u := username.getD ""
    let st2 := addAll st sid r
    let n := roomSize st2 r
    (st2,
      emitToRoomExcept st2 r sid (OutMsg.userJoined u sid)
        ++ [(sid, OutMsg.roomInfo r n)]
        ++ emitToRoom st2 r (OutMsg.roomCount n))

/-- Embeds the `sound:stroke` handler (lines 30 to 35 of server.js):
forwards the payload to the other members of every real room of the
sender, and mutates nothing. -/
def soundStrokeHandler {α : Type} (st : Adapter) (sid : String) (d : α) :
    Adapter × List (String × OutMsg α) :=
  (st, (roomsOf st sid).flatMap (fun room => emitToRoomExcept st room sid (OutMsg.soundStroke d)))

/-- Embeds the `sound:state` handler (lines 37 to 42 of server.js), same
fan out as the stroke handler under the `sound:state` event. -/
def soundStateHandler {α : Type} (st : Adapter) (sid : String) (d : α) :
    Adapter × List (String × OutMsg α) :=
  (st, (roomsOf st sid).flatMap (fun room => emitToRoomExcept st room sid (OutMsg.soundState d)))

/-- Embeds the `canvas:clear` handler (lines 44 to 49 of server.js), same
fan out with no payload. -/
def canvasClearHandler {α : Type} (st : Adapter) (sid : String) :
    Adapter × List (String × OutMsg α) :=
  (st, (roomsOf st sid).flatMap (fun room => emitToRoomExcept st room sid OutMsg.canvasClear))

/-- Embeds a socket closing together with the `disconnect` handler (lines
51 to 58 of server.js). socket.io removes the socket from all of its rooms
(`adapter.delAll`) before it fires the `disconnect` event, so inside this
handler `socket.rooms` is already empty; the loop of the handler therefore
iterates over an empty list. (The rooms are only still visible in the
earlier `disconnecting` event, which server.js does not listen to.) -/
def disconnectEvent {α : Type} (st : Adapter) (sid : String) :
    Adapter × List (String × OutMsg α) :=
  let st2 := delAll st sid
  (st2, (roomsOf st2 sid).flatMap
    (fun room => emitToRoom st2 room (OutMsg.roomCount (roomSize st2 room))))

/-- Modelled from the spec: the disconnect contract of section 4.2 removes
the session from every real room it belonged to and sends `room:count`
with the new count to the remaining members of each such room — that is,
the fan out uses the rooms the session belonged to before removal (what a
`disconnecting` listener would see). server.js itself has no code reading
the pre-removal room list, so this intended behaviour is stated from the
spec for comparison with `disconnectEvent`. -/
def disconnectSpec {α : Type} (st : Adapter) (sid : String) :
    Adapter × List (String × OutMsg α) :=
  let rs := roomsOf st sid
  let st2 := delAll st sid
  (st2, rs.flatMap
    (fun room => emitToRoom st2 room (OutMsg.roomCount (roomSize st2 room))))

/-- Embeds the registry operation `join(sessionId, roomId) -> memberCount`
of section 4.1 of the spec: `socket.join` (adapter `addAll`) followed by
the member count of the room. -/
def joinReg (st : Adapter) (sid room : String) : Adapter × Nat :=
  let st2 := addAll st sid room
  (st2, roomSize st2 room)

/-- Modelled from the spec: the registry operation
`leave(sessionId, roomId) -> memberCount` of section 4.1. server.js never
calls `socket.leave`, so the operation exists only in the spec; the
removal is the adapter `del` that `socket.leave` performs, and the return
value is the new member count (0 when the room becomes empty). -/
def leave (st : Adapter) (sid room : String) : Adapter × Nat :=
  let st2 := del st sid room
  (st2, roomSize st2 room)

/-- A finite sequence of registry joins of one session. -/
def joinSeq (st : Adapter) (sid : String) (rs : List String) : Adapter :=
  rs.foldl (fun s r => addAll s sid r) st

/-- Bidirectional consistency of the registry (section 3 of the spec): a
session is in the member set of a room exactly when the room is in the
room set of the session. -/
def Consistent (st : Adapter) : Prop :=
  ∀ s r, s ∈ members st r ↔ r ∈ socketRooms st s

/-- Two connected clients A and B, neither in a real room yet. -/
def stConn : Adapter :=
  connectSocket (connectSocket emptyAdapter "A") "B"

/-- The scenario state of the spec: A joined room ABCDEF as Alice, then B
joined it as Bob. -/
def stAB : Adapter :=
  (joinHandler (α := Nat)
    (joinHandler (α := Nat) stConn "A" (some "ABCDEF") (some "Alice")).1
    "B" (some "ABCDEF") (some "Bob")).1

/-- A session in two real rooms: A joined R1 and R2, B joined only R1 and
C joined only R2. -/
def stC1 : Adapter :=
  (joinHandler (α := Nat)
    (joinHandler (α := Nat)
      (joinHandler (α := Nat)
        (joinHandler (α := Nat)
          (connectSocket (connectSocket (connectSocket emptyAdapter "A") "B") "C")
          "A" (some "R1") (some "ann")).1
        "A" (some "R2") (some "ann")).1
      "B" (some "R1") (some "bob")).1
    "C" (some "R2") (some "cal")).1

/-- A connected client A that is already a member of room R. -/
def stC7 : Adapter :=
  addAll (connectSocket emptyAdapter "A") "A" "R"

theorem getD_dropEmpty (l : List String) : (dropEmpty l).getD [] = l := by
  unfold dropEmpty
  split
  · simp_all
  · rfl

theorem mem_insertL {x y : String} {l : List String} :
    x ∈ insertL y l ↔ x = y ∨ x ∈ l := by
  unfold insertL
  by_cases h : y ∈ l
  · rw [if_pos h]
    constructor
    · exact Or.inr
    · rintro (rfl | hx)
      · exact h
      · exact hx
  · rw [if_neg h]
    simp [or_comm]

theorem members_addAll (st : Adapter) (s r q : String) :
    members (addAll st s r) q =
      if q = r then insertL s (members st r) else members st q := by
  by_cases h : q = r <;> simp [members, addAll, upd, h]

theorem socketRooms_addAll (st : Adapter) (s r p : String) :
    socketRooms (addAll st s r) p =
      if p = s then insertL r (socketRooms st s) else socketRooms st p := by
  by_cases h : p = s <;> simp [socketRooms, addAll, upd, h]

theorem members_del (st : Adapter) (s r q : String) :
    members (del st s r) q =
      if q = r then (members st r).filter (fun m => m ≠ s) else members st q := by
  unfold members del upd
  cases hr : st.rooms r with
  | none =>
    by_cases h : q = r
    · subst h
      simp [hr]
    · simp [h]
  | some l =>
    by_cases h : q = r
    · subst h
      simp [hr, getD_dropEmpty]
    · simp [h]

theorem socketRooms_del (st : Adapter) (s r p : String) :
    socketRooms (del st s r) p =
      if p = s then (socketRooms st s).filter (fun x => x ≠ r) else socketRooms st p := by
  unfold socketRooms del upd
  cases hs : st.sids s with
  | none =>
    by_cases h : p = s
    · subst h
      simp [hs]
    · simp [h]
  | some l =>
    by_cases h : p = s
    · subst h
      simp [hs]
    · simp [h]

theorem members_delAll (st : Adapter) (s q : String) :
    members (delAll st s) q =
      if q ∈ socketRooms st s then (members st q).filter (fun m => m ≠ s)
      else members st q := by
  by_cases h : q ∈ socketRooms st s
  · rw [if_pos h]
    cases hr : st.rooms q with
    | none => simp [members, delAll, h, hr]
    | some l => simp [members, delAll, h, hr, getD_dropEmpty]
  · rw [if_neg h]
    simp [members, delAll, h]

theorem socketRooms_delAll (st : Adapter) (s p : String) :
    socketRooms (delAll st s) p = if p = s then [] else socketRooms st p := by
  unfold socketRooms delAll upd
  by_cases h : p = s <;> simp [h]

theorem roomSize_eq_length (st : Adapter) (r : String) :
    roomSize st r = (members st r).length := by
  unfold roomSize members
  cases st.rooms r <;> simp

theorem mem_emitToRoom {α : Type} (st : Adapter) (room : String) (m : OutMsg α)
    (b : String) (m2 : OutMsg α) :
    (b, m2) ∈ emitToRoom st room m ↔ b ∈ members st room ∧ m2 = m := by
  unfold emitToRoom
  simp only [List.mem_map, Prod.mk.injEq]
  constructor
  · rintro ⟨a, ha, rfl, rfl⟩
    exact ⟨ha, rfl⟩
  · rintro ⟨hb, rfl⟩
    exact ⟨b, hb, rfl, rfl⟩

theorem mem_emitToRoomExcept {α : Type} (st : Adapter) (room sender : String) (m : OutMsg α)
    (b : String) (m2 : OutMsg α) :
    (b, m2) ∈ emitToRoomExcept st room sender m ↔
      b ∈ members st room ∧ b ≠ sender ∧ m2 = m := by
  unfold emitToRoomExcept
  simp only [List.mem_map, List.mem_filter, decide_eq_true_eq, Prod.mk.injEq]
  constructor
  · rintro ⟨a, ⟨ha, hne⟩, rfl, rfl⟩
    exact ⟨ha, hne, rfl⟩
  · rintro ⟨hb, hne, rfl⟩
    exact ⟨b, ⟨hb, hne⟩, rfl, rfl⟩

theorem mem_fanOut {α : Type} (st : Adapter) (sid : String) (e : OutMsg α)
    (b : String) (m : OutMsg α) :
    (b, m) ∈ (roomsOf st sid).flatMap (fun room => emitToRoomExcept st room sid e) ↔
      (m = e ∧ b ≠ sid ∧ ∃ r, r ∈ socketRooms st sid ∧ r ≠ sid ∧ b ∈ members st r) := by
  unfold roomsOf
  simp only [List.mem_flatMap, List.mem_filter, decide_eq_true_eq, mem_emitToRoomExcept]
  constructor
  · rintro ⟨r, ⟨hr, hrs⟩, hb, hbs, rfl⟩
    exact ⟨rfl, hbs, r, hr, hrs, hb⟩
  · rintro ⟨rfl, hbs, r, hr, hrs, hb⟩
    exact ⟨r, ⟨hr, hrs⟩, hb, hbs, rfl⟩

/-- C1, counterexample to the claim as stated: session A belongs to the
real room R1, yet on a stroke from A the relay also delivers the payload
to session C, which is not in R1 (C shares the other room R2 with A). The
per room form of the claim therefore fails once a session is in more than
one real room. -/
theorem C1_stroke_cex :
    "A" ∈ members stC1 "R1" ∧ "R1" ≠ "A" ∧
    ("C", OutMsg.soundStroke (7 : Nat)) ∈ (soundStrokeHandler stC1 "A" (7 : Nat)).2 ∧
    "C" ∉ members stC1 "R1" := by decide

/-- C1, amended: a stroke from session s is delivered, with the payload
unmodified under the stroke event, exactly to the sessions other than s
that are currently in at least one real room of s; in particular it is
never echoed back to s, and when s is in exactly one real room R this is
precisely every other member of R. -/
theorem C1_stroke_relay {α : Type} (st : Adapter) (s : String) (d : α)
    (b : String) (m : OutMsg α) :
    (b, m) ∈ (soundStrokeHandler st s d).2 ↔
      (m = OutMsg.soundStroke d ∧ b ≠ s ∧
        ∃ r, r ∈ socketRooms st s ∧ r ≠ s ∧ b ∈ members st r) :=
  mem_fanOut st s (OutMsg.soundStroke d) b m

/-- C2: in the scenario of the spec (A and B joined room ABCDEF, then A
disconnects) the disconnect handler of server.js emits nothing, because
socket.io empties `socket.rooms` before the `disconnect` event fires; in
particular B does not receive `room:count{count:1}`. The removal of the
session from the room itself does happen (B remains the only member), and
the disconnect contract modelled from the spec would have delivered
`room:count{count:1}` to B. -/
theorem C2_disconnect_no_roomCount :
    (disconnectEvent (α := Nat) stAB "A").2 = [] ∧
    members (disconnectEvent (α := Nat) stAB "A").1 "ABCDEF" = ["B"] ∧
    (disconnectSpec (α := Nat) stAB "A").2 = [("B", OutMsg.roomCount 1)] := by decide

/-- C4: a join whose room or username field is missing or empty leaves the
registry untouched and sends nothing; the handler is a total function, so
no exception is raised and no connection is dropped. -/
theorem C4_join_malformed_noop {α : Type} (st : Adapter) (sid : String)
    (room username : Option String)
    (h : room.getD "" = "" ∨ username.getD "" = "") :
    joinHandler (α := α) st sid room username = (st, []) := by
  unfold joinHandler
  rw [if_pos h]

theorem C4_join_malformed_noop_witness :
    ((some "" : Option String).getD "" = "" ∨ (some "Bob" : Option String).getD "" = "") ∧
    joinHandler (α := Nat) emptyAdapter "A" (some "") (some "Bob") = (emptyAdapter, []) :=
  ⟨by decide, C4_join_malformed_noop emptyAdapter "A" (some "") (some "Bob") (by decide)⟩

/-- C8: a session whose real room list is empty (it never joined any real
room) gets an empty fan out: stroke, state and clear produce no outbound
message, no registry mutation and no error. -/
theorem C8_no_room_silent {α : Type} (st : Adapter) (sid : String)
    (h : roomsOf st sid = []) :
    (∀ d : α, soundStrokeHandler st sid d = (st, [])) ∧
    (∀ d : α, soundStateHandler st sid d = (st, [])) ∧
    canvasClearHandler (α := α) st sid = (st, []) := by
  refine ⟨fun d => ?_, fun d => ?_, ?_⟩ <;>
    simp [soundStrokeHandler, soundStateHandler, canvasClearHandler, h]

theorem C8_no_room_silent_witness :
    roomsOf (connectSocket emptyAdapter "A") "A" = [] ∧
    ((∀ d : Nat, soundStrokeHandler (connectSocket emptyAdapter "A") "A" d =
        (connectSocket emptyAdapter "A", [])) ∧
      (∀ d : Nat, soundStateHandler (connectSocket emptyAdapter "A") "A" d =
        (connectSocket emptyAdapter "A", [])) ∧
      canvasClearHandler (α := Nat) (connectSocket emptyAdapter "A") "A" =
        (connectSocket emptyAdapter "A", [])) :=
  ⟨by decide, C8_no_room_silent (connectSocket emptyAdapter "A") "A" (by decide)⟩

/-- C10: the member count read `rooms.get(room)?.size || 0` is total and
yields 0 for a room absent from the registry; the same expression is the
one evaluated in the join handler and in the disconnect handler. -/
theorem C10_roomSize_total (st : Adapter) (r : String) (h : st.rooms r = none) :
    roomSize st r = 0 := by
  unfold roomSize
  rw [h]
  rfl

theorem C10_roomSize_total_witness :
    emptyAdapter.rooms "R" = none ∧ roomSize emptyAdapter "R" = 0 :=
  ⟨rfl, C10_roomSize_total emptyAdapter "R" rfl⟩

/-- C3: a join with non empty room and username registers the session
under the room (the new member list contains the joiner and the count is
its length, so the count includes the joiner); the outbound messages are
exactly characterised: a `user:joined` delivery carries the username and
the session id of the joiner and goes precisely to the members other than
the joiner (so the joiner receives nothing about earlier members); a
`room:info` delivery goes precisely to the sender with the room and the
new count; a `room:count` delivery goes precisely to every member,
the sender included, with the new count. -/
theorem C3_join_emissions {α : Type} (st : Adapter) (sid room username : String)
    (hr : room ≠ "") (hu : username ≠ "") :
    (joinHandler (α := α) st sid (some room) (some username)).1 = addAll st sid room ∧
    sid ∈ members (addAll st sid room) room ∧
    roomSize (addAll st sid room) room = (members (addAll st sid room) room).length ∧
    (∀ b u i, ((b, OutMsg.userJoined u i) ∈
        (joinHandler (α := α) st sid (some room) (some username)).2 ↔
      (u = username ∧ i = sid ∧ b ∈ members (addAll st sid room) room ∧ b ≠ sid))) ∧
    (∀ b r c, ((b, OutMsg.roomInfo r c) ∈
        (joinHandler (α := α) st sid (some room) (some username)).2 ↔
      (b = sid ∧ r = room ∧ c = roomSize (addAll st sid room) room))) ∧
    (∀ b c, ((b, OutMsg.roomCount c) ∈
        (joinHandler (α := α) st sid (some room) (some username)).2 ↔
      (b ∈ members (addAll st sid room) room ∧ c = roomSize (addAll st sid room) room))) := by
  have he : joinHandler (α := α) st sid (some room) (some username) =
      (addAll st sid room,
        emitToRoomExcept (addAll st sid room) room sid (OutMsg.userJoined username sid)
          ++ [(sid, OutMsg.roomInfo room (roomSize (addAll st sid room) room))]
          ++ emitToRoom (addAll st sid room) room
              (OutMsg.roomCount (roomSize (addAll st sid room) room))) := by
    simp [joinHandler, hr, hu]
  refine ⟨by rw [he], ?_, roomSize_eq_length _ _, ?_, ?_, ?_⟩
  · rw [members_addAll, if_pos rfl]
    exact mem_insertL.mpr (Or.inl rfl)
  · intro b u i
    rw [he]
    simp [mem_emitToRoom, mem_emitToRoomExcept]
    tauto
  · intro b r c
    rw [he]
    simp [mem_emitToRoom, mem_emitToRoomExcept]
  · intro b c
    rw [he]
    simp [mem_emitToRoom, mem_emitToRoomExcept]

theorem C3_join_emissions_witness :
    ("ABCDEF" ≠ "" ∧ "Alice" ≠ "") ∧
    ((joinHandler (α := Nat) stConn "A" (some "ABCDEF") (some "Alice")).1 =
        addAll stConn "A" "ABCDEF" ∧
      "A" ∈ members (addAll stConn "A" "ABCDEF") "ABCDEF" ∧
      roomSize (addAll stConn "A" "ABCDEF") "ABCDEF" =
        (members (addAll stConn "A" "ABCDEF") "ABCDEF").length ∧
      (∀ b u i, ((b, OutMsg.userJoined u i) ∈
          (joinHandler (α := Nat) stConn "A" (some "ABCDEF") (some "Alice")).2 ↔
        (u = "Alice" ∧ i = "A" ∧
          b ∈ members (addAll stConn "A" "ABCDEF") "ABCDEF" ∧ b ≠ "A"))) ∧
      (∀ b r c, ((b, OutMsg.roomInfo r c) ∈
          (joinHandler (α := Nat) stConn "A" (some "ABCDEF") (some "Alice")).2 ↔
        (b = "A" ∧ r = "ABCDEF" ∧ c = roomSize (addAll stConn "A" "ABCDEF") "ABCDEF"))) ∧
      (∀ b c, ((b, OutMsg.roomCount c) ∈
          (joinHandler (α := Nat) stConn "A" (some "ABCDEF") (some "Alice")).2 ↔
        (b ∈ members (addAll stConn "A" "ABCDEF") "ABCDEF" ∧
          c = roomSize (addAll stConn "A" "ABCDEF") "ABCDEF")))) :=
  ⟨⟨by decide, by decide⟩,
    C3_join_emissions stConn "A" "ABCDEF" "Alice" (by decide) (by decide)⟩

theorem mem_roomsOf (st : Adapter) (s q : String) :
    q ∈ roomsOf st s ↔ q ∈ socketRooms st s ∧ q ≠ s := by
  simp [roomsOf, List.mem_filter]

theorem roomsOf_joinSeq (st : Adapter) (s : String) (rs : List String) (q : String) :
    q ∈ roomsOf (joinSeq st s rs) s ↔ (q ∈ rs ∧ q ≠ s) ∨ q ∈ roomsOf st s := by
  induction rs generalizing st with
  | nil => simp [joinSeq]
  | cons r rest ih =>
    have h1 : joinSeq st s (r :: rest) = joinSeq (addAll st s r) s rest := rfl
    rw [h1, ih]
    simp [mem_roomsOf, socketRooms_addAll, mem_insertL, List.mem_cons]
    tauto

/-- C5: starting from a session with no real room, after any finite
sequence of registry joins the real rooms of the session are exactly the
distinct real room ids passed, with the synthetic self named room excluded
(both from `roomsOf`, which is the list every fan out and the disconnect
count loop iterate over, and from the result set); and, in every state
whatsoever (in particular at any intermediate state of the sequence), a
repeated join of a room the session already belongs to leaves every member
set unchanged. -/
theorem C5_joinSeq_rooms (st : Adapter) (s : String) (rs : List String)
    (h : roomsOf st s = []) :
    (∀ q, q ∈ roomsOf (joinSeq st s rs) s ↔ (q ∈ rs ∧ q ≠ s)) ∧
    (∀ st0 : Adapter, ∀ r q, s ∈ members st0 r →
      members (addAll st0 s r) q = members st0 q) := by
  constructor
  · intro q
    rw [roomsOf_joinSeq, h]
    simp
  · intro st0 r q hm
    rw [members_addAll]
    by_cases hq : q = r
    · subst hq
      rw [if_pos rfl]
      unfold insertL
      rw [if_pos hm]
    · rw [if_neg hq]

theorem C5_joinSeq_rooms_witness :
    roomsOf (connectSocket emptyAdapter "A") "A" = [] ∧
    ((∀ q, q ∈ roomsOf (joinSeq (connectSocket emptyAdapter "A") "A" ["R1", "R2", "R1"]) "A" ↔
        (q ∈ ["R1", "R2", "R1"] ∧ q ≠ "A")) ∧
      (∀ st0 : Adapter, ∀ r q, "A" ∈ members st0 r →
        members (addAll st0 "A" r) q = members st0 q)) :=
  ⟨by decide,
    C5_joinSeq_rooms (connectSocket emptyAdapter "A") "A" ["R1", "R2", "R1"] (by decide)⟩

theorem consistent_addAll {st : Adapter} (h : Consistent st) (s r : String) :
    Consistent (addAll st s r) := by
  intro p q
  rw [members_addAll, socketRooms_addAll]
  by_cases hq : q = r <;> by_cases hp : p = s
  · rw [if_pos hq, if_pos hp, hq, hp]
    simp [mem_insertL]
  · rw [if_pos hq, if_neg hp, hq, mem_insertL, h p r]
    simp [hp]
  · rw [if_neg hq, if_pos hp, hp, mem_insertL, h s q]
    simp [hq]
  · rw [if_neg hq, if_neg hp]
    exact h p q

theorem consistent_del {st : Adapter} (h : Consistent st) (s r : String) :
    Consistent (del st s r) := by
  intro p q
  rw [members_del, socketRooms_del]
  by_cases hq : q = r <;> by_cases hp : p = s
  · rw [if_pos hq, if_pos hp, hq, hp]
    simp [List.mem_filter]
  · rw [if_pos hq, if_neg hp, hq]
    simp only [List.mem_filter, decide_eq_true_eq]
    rw [h p r]
    simp [hp]
  · rw [if_neg hq, if_pos hp, hp]
    simp only [List.mem_filter, decide_eq_true_eq]
    rw [h s q]
    simp [hq]
  · rw [if_neg hq, if_neg hp]
    exact h p q

theorem consistent_delAll {st : Adapter} (h : Consistent st) (s : String) :
    Consistent (delAll st s) := by
  intro p q
  rw [members_delAll, socketRooms_delAll]
  by_cases hp : p = s
  · subst hp
    rw [if_pos rfl]
    by_cases hq : q ∈ socketRooms st p
    · rw [if_pos hq]
      simp [List.mem_filter]
    · rw [if_neg hq]
      rw [h p q]
      simp [hq]
  · rw [if_neg hp]
    by_cases hq : q ∈ socketRooms st s
    · rw [if_pos hq]
      simp only [List.mem_filter, decide_eq_true_eq]
      rw [h p q]
      tauto
    · rw [if_neg hq]
      exact h p q

/-- C6: bidirectional consistency of the registry (a session is in the
member set of a room exactly when the room is in the room set of the
session) is preserved by every operation: the adapter primitives behind
join, leave and disconnect, the connection step, the join handler (both
branches) and the disconnect event. Each handler is a single function from
state to state, so no intermediate state is observable by any other
operation. -/
theorem C6_consistency_preserved (st : Adapter) (h : Consistent st) :
    (∀ s r, Consistent (addAll st s r)) ∧
    (∀ s r, Consistent (del st s r)) ∧
    (∀ s, Consistent (delAll st s)) ∧
    (∀ s, Consistent (connectSocket st s)) ∧
    (∀ s ro uo, Consistent ((joinHandler (α := Nat) st s ro uo)).1) ∧
    (∀ s, Consistent ((disconnectEvent (α := Nat) st s)).1) := by
  refine ⟨fun s r => consistent_addAll h s r,
    fun s r => consistent_del h s r,
    fun s => consistent_delAll h s,
    fun s => consistent_addAll h s s,
    fun s ro uo => ?_,
    fun s => consistent_delAll h s⟩
  by_cases hg : ro.getD "" = "" ∨ uo.getD "" = ""
  · unfold joinHandler
    rw [if_pos hg]
    exact h
  · unfold joinHandler
    rw [if_neg hg]
    exact consistent_addAll h s (ro.getD "")

theorem C6_consistency_preserved_witness :
    Consistent emptyAdapter ∧
    ((∀ s r, Consistent (addAll emptyAdapter s r)) ∧
      (∀ s r, Consistent (del emptyAdapter s r)) ∧
      (∀ s, Consistent (delAll emptyAdapter s)) ∧
      (∀ s, Consistent (connectSocket emptyAdapter s)) ∧
      (∀ s ro uo, Consistent ((joinHandler (α := Nat) emptyAdapter s ro uo)).1) ∧
      (∀ s, Consistent ((disconnectEvent (α := Nat) emptyAdapter s)).1)) := by
  have hp : Consistent emptyAdapter := by
    intro p q
    simp [members, socketRooms, emptyAdapter]
  exact ⟨hp, C6_consistency_preserved emptyAdapter hp⟩

theorem filter_ne_of_not_mem {s : String} {l : List String} (h : s ∉ l) :
    l.filter (fun m => m ≠ s) = l := by
  rw [List.filter_eq_self]
  intro a ha
  simp only [decide_eq_true_eq]
  rintro rfl
  exact h ha

/-- C7, counterexample to the claim as stated: when the session is already
a member of the room (here A alone in room R, count 1), the idempotent
join leaves the count at 1 and the following leave drops it to 0, so the
count does not return to its pre join value. -/
theorem C7_join_leave_cex :
    "A" ∈ members stC7 "R" ∧
    roomSize stC7 "R" = 1 ∧
    (leave (joinReg stC7 "A" "R").1 "A" "R").2 = 0 ∧
    ¬ ((leave (joinReg stC7 "A" "R").1 "A" "R").2 = roomSize stC7 "R") := by
  decide

/-- C7, amended: provided the session s is not already a member of the
room r (stated on both sides of the registry, which agree in every
consistent state, and excluding the degenerate stored empty member list
that no operation ever produces), join then leave returns the member count
of r to its pre join value; after the pair r is not among the real rooms
of s; leave on a state where s is not a member is a no op; and leave
returns 0 whenever the room has become empty. -/
theorem C7_join_leave (st : Adapter) (s r : String)
    (h1 : s ∉ members st r) (h2 : r ∉ socketRooms st s)
    (h3 : st.rooms r ≠ some []) :
    (leave (joinReg st s r).1 s r).2 = roomSize st r ∧
    r ∉ roomsOf (leave (joinReg st s r).1 s r).1 s ∧
    (leave st s r).1 = st ∧
    (∀ st0 s0 r0, members (leave st0 s0 r0).1 r0 = [] → (leave st0 s0 r0).2 = 0) := by
  refine ⟨?_, ?_, ?_, ?_⟩
  · show roomSize (del (addAll st s r) s r) r = roomSize st r
    rw [roomSize_eq_length, roomSize_eq_length, members_del, if_pos rfl,
      members_addAll, if_pos rfl]
    unfold insertL
    rw [if_neg h1, List.filter_append, filter_ne_of_not_mem h1]
    simp
  · show r ∉ roomsOf (del (addAll st s r) s r) s
    rw [mem_roomsOf, socketRooms_del, if_pos rfl]
    simp [List.mem_filter]
  · show del st s r = st
    cases st with
    | mk rooms sids =>
      unfold del
      congr 1
      · cases hr : rooms r with
        | none => simp [hr]
        | some l =>
          have hs : s ∉ l := by
            intro hmem
            apply h1
            show s ∈ (rooms r).getD []
            rw [hr]
            exact hmem
          have hl : l ≠ [] := by
            intro hnil
            apply h3
            show rooms r = some []
            rw [hr, hnil]
          simp only [hr, filter_ne_of_not_mem hs]
          unfold dropEmpty
          rw [if_neg hl]
          funext q
          unfold upd
          by_cases hq : q = r
          · rw [if_pos hq, hq, hr]
          · rw [if_neg hq]
      · cases hs : sids s with
        | none => simp [hs]
        | some l =>
          have hr : r ∉ l := by
            intro hmem
            apply h2
            show r ∈ (sids s).getD []
            rw [hs]
            exact hmem
          have : l.filter (fun x => x ≠ r) = l := by
            rw [List.filter_eq_self]
            intro a ha
            simp only [decide_eq_true_eq]
            rintro rfl
            exact hr ha
          simp only [hs, this]
          funext p
          unfold upd
          by_cases hp : p = s
          · rw [if_pos hp, hp, hs]
          · rw [if_neg hp]
  · intro st0 s0 r0 hm
    show roomSize (del st0 s0 r0) r0 = 0
    rw [roomSize_eq_length]
    rw [show members (del st0 s0 r0) r0 = members (leave st0 s0 r0).1 r0 from rfl, hm]
    rfl

theorem C7_join_leave_witness :
    ("A" ∉ members (connectSocket emptyAdapter "A") "R" ∧
      "R" ∉ socketRooms (connectSocket emptyAdapter "A") "A" ∧
      (connectSocket emptyAdapter "A").rooms "R" ≠ some []) ∧
    ((leave (joinReg (connectSocket emptyAdapter "A") "A" "R").1 "A" "R").2 =
        roomSize (connectSocket emptyAdapter "A") "R" ∧
      "R" ∉ roomsOf (leave (joinReg (connectSocket emptyAdapter "A") "A" "R").1 "A" "R").1 "A" ∧
      (leave (connectSocket emptyAdapter "A") "A" "R").1 = connectSocket emptyAdapter "A" ∧
      (∀ st0 s0 r0, members (leave st0 s0 r0).1 r0 = [] → (leave st0 s0 r0).2 = 0)) :=
  ⟨⟨by decide, by decide, by decide⟩,
    C7_join_leave (connectSocket emptyAdapter "A") "A" "R" (by decide) (by decide) (by decide)⟩

/-- C9: a join of a second room r2 registers the session there without
removing it from r1 and without touching the member set of any room other
than r2; the session then belongs to both rooms, and every subsequent
stroke, state or clear message from it is delivered to each other member
of r1 and of r2. -/
theorem C9_second_room_frame (st : Adapter) (s r1 r2 u : String)
    (h1 : s ∈ members st r1) (h1b : r1 ∈ socketRooms st s)
    (hr1s : r1 ≠ s) (hr2s : r2 ≠ s) (hne : r1 ≠ r2)
    (hr2 : r2 ≠ "") (hu : u ≠ "") :
    (joinHandler (α := Nat) st s (some r2) (some u)).1 = addAll st s r2 ∧
    s ∈ members (addAll st s r2) r1 ∧
    s ∈ members (addAll st s r2) r2 ∧
    (∀ q, q ≠ r2 → members (addAll st s r2) q = members st q) ∧
    (∀ d : Nat, ∀ b, b ≠ s →
      (b ∈ members (addAll st s r2) r1 ∨ b ∈ members (addAll st s r2) r2) →
      ((b, OutMsg.soundStroke d) ∈ (soundStrokeHandler (addAll st s r2) s d).2 ∧
        (b, OutMsg.soundState d) ∈ (soundStateHandler (addAll st s r2) s d).2 ∧
        (b, OutMsg.canvasClear) ∈ (canvasClearHandler (α := Nat) (addAll st s r2) s).2)) := by
  have hmem1 : s ∈ members (addAll st s r2) r1 := by
    rw [members_addAll, if_neg hne]
    exact h1
  have hsr1 : r1 ∈ socketRooms (addAll st s r2) s := by
    rw [socketRooms_addAll, if_pos rfl]
    exact mem_insertL.mpr (Or.inr h1b)
  have hsr2 : r2 ∈ socketRooms (addAll st s r2) s := by
    rw [socketRooms_addAll, if_pos rfl]
    exact mem_insertL.mpr (Or.inl rfl)
  refine ⟨by simp [joinHandler, hr2, hu], hmem1, ?_, ?_, ?_⟩
  · rw [members_addAll, if_pos rfl]
    exact mem_insertL.mpr (Or.inl rfl)
  · intro q hq
    rw [members_addAll, if_neg hq]
  · intro d b hbs hb
    have hex : ∃ r, r ∈ socketRooms (addAll st s r2) s ∧ r ≠ s ∧
        b ∈ members (addAll st s r2) r := by
      rcases hb with hb1 | hb2
      · exact ⟨r1, hsr1, hr1s, hb1⟩
      · exact ⟨r2, hsr2, hr2s, hb2⟩
    exact ⟨(mem_fanOut (addAll st s r2) s (OutMsg.soundStroke d) b _).mpr ⟨rfl, hbs, hex⟩,
      (mem_fanOut (addAll st s r2) s (OutMsg.soundState d) b _).mpr ⟨rfl, hbs, hex⟩,
      (mem_fanOut (addAll st s r2) s OutMsg.canvasClear b _).mpr ⟨rfl, hbs, hex⟩⟩

theorem C9_second_room_frame_witness :
    ("A" ∈ members stAB "ABCDEF" ∧ "ABCDEF" ∈ socketRooms stAB "A" ∧
      "ABCDEF" ≠ "A" ∧ "R2" ≠ "A" ∧ "ABCDEF" ≠ "R2" ∧ "R2" ≠ "" ∧ "ann" ≠ "") ∧
    ((joinHandler (α := Nat) stAB "A" (some "R2") (some "ann")).1 = addAll stAB "A" "R2" ∧
      "A" ∈ members (addAll stAB "A" "R2") "ABCDEF" ∧
      "A" ∈ members (addAll stAB "A" "R2") "R2" ∧
      (∀ q, q ≠ "R2" → members (addAll stAB "A" "R2") q = members stAB q) ∧
      (∀ d : Nat, ∀ b, b ≠ "A" →
        (b ∈ members (addAll stAB "A" "R2") "ABCDEF" ∨
          b ∈ members (addAll stAB "A" "R2") "R2") →
        ((b, OutMsg.soundStroke d) ∈ (soundStrokeHandler (addAll stAB "A" "R2") "A" d).2 ∧
          (b, OutMsg.soundState d) ∈ (soundStateHandler (addAll stAB "A" "R2") "A" d).2 ∧
          (b, OutMsg.canvasClear) ∈
            (canvasClearHandler (α := Nat) (addAll stAB "A" "R2") "A").2))) :=
  ⟨⟨by decide, by decide, by decide, by decide, by decide, by decide, by decide⟩,
    C9_second_room_frame stAB "A" "ABCDEF" "R2" "ann" (by decide) (by decide) (by decide)
      (by decide) (by decide) (by decide) (by decide)⟩
